import Mathlib

/-!
# Book-Listing: the incremental listing controller and the catalog service

A shallow embedding of `client/src/components/BookListing.jsx` (the React
component that pages through the catalog, adds and deletes books) and of the
`GET /books` handler of `server/index.js`.

The component keeps its state in `useState` cells; here they are the fields of
one record `State`.  Every `async` handler is split at its `await` into the part
that runs when the handler is called (`*_begin`, which may issue one HTTP
request) and the part that runs when the request settles (`*_end`).
-/

namespace BookListing

/-! ## Data model -/

/-- A document of the `Book` collection (`server/src/models/book.js`), with the
identifier the store assigns.  `createdAt` is the creation time in milliseconds. -/
structure Book where
  _id : String
  title : String
  author : String
  description : String
  createdAt : Nat
  deriving DecidableEq, Repr

/-- The `useState` cells of the `BookListing` component. -/
structure State where
  books : List Book
  title : String
  author : String
  description : String
  error : String
  loading : Bool
  page : Nat
  hasMore : Bool
  showDeleteModal : Bool
  selectedBook : Option Book
  deriving DecidableEq, Repr

/-- The initial values passed to `useState`. -/
def State.initial : State :=
  { books := [], title := "", author := "", description := "", error := "",
    loading := false, page := 1, hasMore := true, showDeleteModal := false,
    selectedBook := none }

/-- The value of the component constant `ITEMS_PER_PAGE`. -/
def ITEMS_PER_PAGE : Nat := 10

/-- An HTTP request the component sends to `API_URL`. -/
inductive Request where
  | get (page limit : Nat)
  | post (title author description : String)
  | delete (id : String)
  deriving DecidableEq, Repr

/-- How the request of `fetchBooks` settles: `fetch` rejects, or it resolves to a
response (`ok` is `response.ok`) whose body either fails to parse
(`response.json()` rejects) or parses to an array of records.  Bodies that parse
to something that is not an array are outside this type. -/
inductive FetchResult where
  | networkError
  | badBody (ok : Bool)
  | json (ok : Bool) (data : List Book)
  deriving DecidableEq, Repr

/-- How the request of `handleSubmit` settles; `body = none` when
`response.json()` rejects. -/
inductive SubmitResult where
  | networkError
  | response (ok : Bool) (body : Option Book)
  deriving DecidableEq, Repr

/-- How the request of `handleDelete` settles (the body is never read). -/
inductive DeleteResult where
  | networkError
  | response (ok : Bool)
  deriving DecidableEq, Repr

/-! ## String trimming -/

/-- White space and line terminators of ECMAScript, the characters
`String.prototype.trim` strips. -/
def isJsWhiteSpace (c : Char) : Bool :=
  let n := c.toNat
  n == 0x9 || n == 0xA || n == 0xB || n == 0xC || n == 0xD || n == 0x20 || n == 0xA0 ||
  n == 0x1680 || (0x2000 ≤ n && n ≤ 0x200A) || n == 0x2028 || n == 0x2029 ||
  n == 0x202F || n == 0x205F || n == 0x3000 || n == 0xFEFF

/-- The characters of `s.trim()`. -/
def trim (s : List Char) : List Char :=
  ((s.dropWhile isJsWhiteSpace).reverse.dropWhile isJsWhiteSpace).reverse

/-- The test `!s.trim()`: the trimmed string is the empty string. -/
def blank (s : String) : Bool := (trim s.toList).isEmpty

/-! ## fetchBooks -/

/-- The updater passed to `setBooks` in `fetchBooks`: the records of `data` whose
`_id` is not among `prevBooks`, appended to `prevBooks`. -/
def mergePage (prevBooks data : List Book) : List Book :=
  prevBooks ++ data.filter (fun newBook =>
    !prevBooks.any (fun existingBook => existingBook._id == newBook._id))

/-- The first half of `fetchBooks`, up to the `await fetch(...)`: `setLoading(true)`
and the request for the current `page`.  `limit` is `ITEMS_PER_PAGE`. -/
def fetchBooks_begin (limit : Nat) (s : State) : State × Request :=
  ({ s with loading := true }, Request.get s.page limit)

/-- The second half of `fetchBooks`, run when the request settles: a short page
clears `hasMore`, the page is merged; a rejection sets the error; `finally`
clears `loading`. -/
def fetchBooks_end (limit : Nat) (s : State) (r : FetchResult) : State :=
  match r with
  | .networkError => { s with error := "Failed to fetch books", loading := false }
  | .badBody _ => { s with error := "Failed to fetch books", loading := false }
  | .json _ data =>
    let s1 := if data.length < limit then { s with hasMore := false } else s
    { s1 with books := mergePage s1.books data, loading := false }

/-- One whole call of `fetchBooks` whose request settles with `r`. -/
def fetchBooks (limit : Nat) (s : State) (r : FetchResult) : State :=
  fetchBooks_end limit (fetchBooks_begin limit s).1 r

/-- The effect `useEffect(..., [page])` up to the `await`: page 1 clears the
list, then `fetchBooks` starts. -/
def pageEffect_begin (limit : Nat) (s : State) : State × Request :=
  fetchBooks_begin limit (if s.page = 1 then { s with books := [] } else s)

/-- The intersection callback installed by `lastBookElementRef`.  The observer
watches the last rendered book only when the ref callback ran with
`loading = false`; the callback then increments `page` when `hasMore`, and the
page effect starts the retrieval. -/
def onIntersect (limit : Nat) (s : State) : State × Option Request :=
  if s.loading then (s, none)
  else if s.books.isEmpty then (s, none)
  else if s.hasMore then
    let r := pageEffect_begin limit { s with page := s.page + 1 }
    (r.1, some r.2)
  else (s, none)

/-! ## handleSubmit -/

/-- The first half of `handleSubmit`: the required-field check, then
`setLoading(true)` and the `POST`. -/
def handleSubmit_begin (s : State) : State × Option Request :=
  if blank s.title || blank s.author || blank s.description then
    ({ s with error := "All fields are required" }, none)
  else
    ({ s with loading := true }, some (Request.post s.title s.author s.description))

/-- The second half of `handleSubmit`, run when the `POST` settles. -/
def handleSubmit_end (s : State) (r : SubmitResult) : State :=
  match r with
  | .response true (some newBook) =>
    { s with books := newBook :: s.books, title := "", author := "", description := "",
             error := "", loading := false }
  | _ => { s with error := "Failed to add book", loading := false }

/-- One whole call of `handleSubmit`; `r` is how the request settles when one is
sent. -/
def handleSubmit (s : State) (r : SubmitResult) : State :=
  match handleSubmit_begin s with
  | (s1, some _) => handleSubmit_end s1 r
  | (s1, none) => s1

/-! ## handleDelete -/

/-- The handler `confirmDelete`. -/
def confirmDelete (s : State) (book : Book) : State :=
  { s with selectedBook := some book, showDeleteModal := true }

/-- The first half of `handleDelete`: nothing without a selected book, else
`setLoading(true)` and the `DELETE`.  The selected book is returned as well: the
second half reads it from the closure. -/
def handleDelete_begin (s : State) : State × Option (Request × Book) :=
  match s.selectedBook with
  | none => (s, none)
  | some b => ({ s with loading := true }, some (Request.delete b._id, b))

/-- The second half of `handleDelete`, run when the `DELETE` settles;
`selectedBook` is the book captured when the handler was called. -/
def handleDelete_end (s : State) (selectedBook : Book) (r : DeleteResult) : State :=
  match r with
  | .response true =>
    { s with books := s.books.filter (fun book => book._id != selectedBook._id),
             showDeleteModal := false, selectedBook := none, loading := false }
  | _ => { s with error := "Failed to delete book", loading := false }

/-- One whole call of `handleDelete`. -/
def handleDelete (s : State) (r : DeleteResult) : State :=
  match handleDelete_begin s with
  | (s1, some (_, b)) => handleDelete_end s1 b r
  | (s1, none) => s1

/-! ## The catalog service: `GET /books` -/

/-- The store query `bookModal.find().sort({ createdAt: -1 })` over the documents
`docs` of the collection: all of them, newest first. -/
def findSorted (docs : List Book) : List Book :=
  docs.insertionSort (fun a b => b.createdAt ≤ a.createdAt)

/-- A JSON body the service sends. -/
inductive ResponseBody where
  | books (l : List Book)
  | message (m : String)
  deriving DecidableEq, Repr

/-- A response of the service. -/
structure HttpResponse where
  status : Nat
  body : ResponseBody
  deriving DecidableEq, Repr

/-- The handler `app.get('/books', ...)`.  `store` is the collection when the
query succeeds and the error message when it throws; `page` and `limit` are the
query parameters of the request, which the handler never reads. -/
def getBooks (store : Except String (List Book)) (_page _limit : Nat) : HttpResponse :=
  match store with
  | .ok docs => { status := 200, body := .books (findSorted docs) }
  | .error m => { status := 500, body := .message m }

/-- What `fetchBooks` receives for a request served by `getBooks` over a readable
collection `docs`: a 2xx response whose body is the array the handler sent. -/
def served (docs : List Book) (_page _limit : Nat) : FetchResult :=
  FetchResult.json true (findSorted docs)

/-! ## The controller as an event-driven machine -/

/-- The component together with the requests that have not settled yet. -/
structure Controller where
  /-- The component state. -/
  view : State
  /-- The retrievals of `fetchBooks` in flight, oldest first. -/
  gets : List Request
  /-- The number of `POST`s of `handleSubmit` in flight. -/
  posts : Nat
  /-- For each `DELETE` in flight, the book `handleDelete` captured; oldest first. -/
  deletes : List Book
  /-- Every request issued so far, oldest first. -/
  sent : List Request
  deriving DecidableEq, Repr

/-- What can happen to the mounted component. -/
inductive Event where
  /-- The intersection observer reports the last rendered book as intersecting. -/
  | intersect
  /-- The oldest retrieval in flight settles. -/
  | fetchSettled (r : FetchResult)
  /-- The inputs of the form change. -/
  | setTitle (v : String)
  | setAuthor (v : String)
  | setDescription (v : String)
  /-- The form is submitted (the button is disabled while `loading`). -/
  | submit
  /-- The oldest `POST` in flight settles. -/
  | submitSettled (r : SubmitResult)
  /-- The bin icon of a rendered book is clicked. -/
  | confirmDelete (book : Book)
  /-- One of the two closing buttons of the dialog is clicked. -/
  | closeModal
  /-- The Delete button of the dialog is clicked. -/
  | clickDelete
  /-- The oldest `DELETE` in flight settles. -/
  | deleteSettled (r : DeleteResult)
  deriving DecidableEq, Repr

/-- The component after its first render: the page effect has run once. -/
def mount (limit : Nat) : Controller :=
  let r := pageEffect_begin limit State.initial
  { view := r.1, gets := [r.2], posts := 0, deletes := [], sent := [r.2] }

/-- One event. -/
def step (limit : Nat) (c : Controller) (e : Event) : Controller :=
  match e with
  | .intersect =>
    match onIntersect limit c.view with
    | (s, some req) => { c with view := s, gets := c.gets ++ [req], sent := c.sent ++ [req] }
    | (s, none) => { c with view := s }
  | .fetchSettled r =>
    match c.gets with
    | [] => c
    | _ :: rest => { c with view := fetchBooks_end limit c.view r, gets := rest }
  | .setTitle v => { c with view := { c.view with title := v } }
  | .setAuthor v => { c with view := { c.view with author := v } }
  | .setDescription v => { c with view := { c.view with description := v } }
  | .submit =>
    if c.view.loading then c
    else
      match handleSubmit_begin c.view with
      | (s, some req) => { c with view := s, posts := c.posts + 1, sent := c.sent ++ [req] }
      | (s, none) => { c with view := s }
  | .submitSettled r =>
    match c.posts with
    | 0 => c
    | n + 1 => { c with view := handleSubmit_end c.view r, posts := n }
  | .confirmDelete book =>
    if book ∈ c.view.books then { c with view := confirmDelete c.view book } else c
  | .closeModal => { c with view := { c.view with showDeleteModal := false } }
  | .clickDelete =>
    if c.view.showDeleteModal then
      match handleDelete_begin c.view with
      | (s, some (req, b)) =>
        { c with view := s, deletes := c.deletes ++ [b], sent := c.sent ++ [req] }
      | (s, none) => { c with view := s }
    else c
  | .deleteSettled r =>
    match c.deletes with
    | [] => c
    | b :: rest => { c with view := handleDelete_end c.view b r, deletes := rest }

/-- A trace of events, from the left. -/
def run (limit : Nat) (c : Controller) (events : List Event) : Controller :=
  events.foldl (step limit) c

/-- The retrieval in flight is answered: `serve page limit` is what the service
returns for the request. -/
def settleWith (limit : Nat) (serve : Nat → Nat → FetchResult) (c : Controller) : Controller :=
  match c.gets with
  | Request.get p n :: _ => step limit c (.fetchSettled (serve p n))
  | _ => c

/-- The state after `n + 1` page loads in a row: the load of the first render,
then `n` times a trigger followed by the answer to the retrieval it starts. -/
def afterLoad (limit : Nat) (serve : Nat → Nat → FetchResult) : Nat → Controller
  | 0 => settleWith limit serve (mount limit)
  | n + 1 => settleWith limit serve (step limit (afterLoad limit serve n) .intersect)

/-- The pages `pages`, each retrieved successfully, handled by `fetchBooks` one
after another from the initial state. -/
def loadPages (limit : Nat) (pages : List (List Book)) : State :=
  pages.foldl (fun s data => fetchBooks limit s (.json true data)) State.initial

/-- The `i`-th page (from 1) of `L` cut into pages of `k` records. -/
def chunk (L : List Book) (k i : Nat) : List Book :=
  (L.drop ((i - 1) * k)).take k

/-- The `_id`s of a list of records. -/
def ids (l : List Book) : List String := l.map (fun b => b._id)

/-! ## Sample records -/

/-- A record with the given identifier and creation time. -/
def sample (id : String) (t : Nat) : Book :=
  { _id := id, title := "t", author := "a", description := "d", createdAt := t }

/-- Five records, newest first. -/
def fiveBooks : List Book :=
  [sample "A" 5, sample "B" 4, sample "C" 3, sample "D" 2, sample "E" 1]

/-- Ten records, oldest first. -/
def tenBooks : List Book :=
  [sample "0" 0, sample "1" 1, sample "2" 2, sample "3" 3, sample "4" 4,
   sample "5" 5, sample "6" 6, sample "7" 7, sample "8" 8, sample "9" 9]

/-- A form with all three fields filled in. -/
def filledForm : State :=
  { State.initial with title := " Dune ", author := "Herbert", description := "Sand." }

/-- A form whose author is white space only. -/
def blankAuthorForm : State :=
  { State.initial with title := "Dune", author := " \t\n", description := "Sand." }


/-- A trace over the repository's own service with ten records: the first page
arrives, a trigger starts the retrieval of page 2, and while it is in flight a
book is deleted and the delete request is answered. -/
def deleteDuringLoad : List Event :=
  [ .fetchSettled (served tenBooks 1 ITEMS_PER_PAGE), .intersect,
    .confirmDelete (sample "3" 3), .clickDelete, .deleteSettled (.response true) ]

/-! ## Lemmas on the page merge -/

theorem mergePage_nil (data : List Book) : mergePage [] data = data := by
  simp [mergePage]

theorem mem_ids {l : List Book} {x : String} : x ∈ ids l ↔ ∃ b ∈ l, b._id = x := by
  simp [ids]

theorem any_id_iff (prev : List Book) (b : Book) :
    prev.any (fun existingBook => existingBook._id == b._id) = true ↔ b._id ∈ ids prev := by
  simp [ids, List.any_eq_true]

theorem ids_mergePage_nodup (prev data : List Book)
    (hprev : (ids prev).Nodup) (hdata : (ids data).Nodup) :
    (ids (mergePage prev data)).Nodup := by
  unfold mergePage ids
  rw [List.map_append]
  refine List.Nodup.append hprev ?_ ?_
  · exact hdata.sublist ((List.filter_sublist data).map _)
  · intro x hx hx2
    obtain ⟨b, hb, rfl⟩ := List.mem_map.1 hx2
    have hb2 := (List.mem_filter.1 hb).2
    have : b._id ∈ ids prev := hx
    rw [← any_id_iff] at this
    simp [this] at hb2

theorem fetchBooks_json (limit : Nat) (s : State) (ok : Bool) (data : List Book) :
    fetchBooks limit s (.json ok data) =
      { s with hasMore := s.hasMore && decide (limit ≤ data.length),
               books := mergePage s.books data, loading := false } := by
  unfold fetchBooks fetchBooks_begin fetchBooks_end
  by_cases h : data.length < limit
  · have h2 : ¬ limit ≤ data.length := by omega
    simp [h, h2]
  · have h2 : limit ≤ data.length := by omega
    simp [h, h2]

theorem foldl_fetchBooks_nodup (limit : Nat) (pages : List (List Book)) (s : State)
    (hs : (ids s.books).Nodup) (hpages : ∀ p ∈ pages, (ids p).Nodup) :
    (ids (pages.foldl (fun s data => fetchBooks limit s (.json true data)) s).books).Nodup := by
  induction pages generalizing s with
  | nil => simpa using hs
  | cons p rest ih =>
    rw [List.foldl_cons]
    apply ih
    · rw [fetchBooks_json]
      exact ids_mergePage_nodup _ _ hs (hpages p (List.mem_cons_self _ _))
    · intro q hq
      exact hpages q (List.mem_cons_of_mem _ hq)

theorem foldl_fetchBooks_hasMore (limit : Nat) (pages : List (List Book)) (s : State) :
    (pages.foldl (fun s data => fetchBooks limit s (.json true data)) s).hasMore = false ↔
      s.hasMore = false ∨ ∃ p ∈ pages, p.length < limit := by
  induction pages generalizing s with
  | nil => simp
  | cons p rest ih =>
    rw [List.foldl_cons, ih, fetchBooks_json]
    simp only [List.mem_cons, exists_eq_or_imp, Bool.and_eq_false_imp, decide_eq_false_iff_not,
      not_le]
    constructor
    · rintro (h | h)
      · by_cases hm : s.hasMore = true
        · exact Or.inr (Or.inl (h hm))
        · exact Or.inl (by simpa using hm)
      · exact Or.inr (Or.inr h)
    · rintro (h | h | h)
      · exact Or.inl (by simp [h])
      · exact Or.inl (fun _ => h)
      · exact Or.inr h

/-! ## Claims -/

/-- C1 (counterexample): one retrieved page that holds two records with the same
`_id` is appended whole, so the accumulated list repeats that `_id`. -/
theorem loadPages_repeats_id_within_page :
    ¬ (ids (loadPages ITEMS_PER_PAGE [[sample "A" 2, sample "A" 1]]).books).Nodup := by
  decide

/-- C1 (amended): when no retrieved page repeats an `_id` within itself, the list
accumulated by `fetchBooks` from the empty list over any sequence of successful
retrievals holds no two records with the same `_id`, however the pages overlap. -/
theorem loadPages_ids_nodup (limit : Nat) (pages : List (List Book))
    (hpages : ∀ p ∈ pages, (ids p).Nodup) :
    (ids (loadPages limit pages).books).Nodup :=
  foldl_fetchBooks_nodup limit pages State.initial (by simp [State.initial, ids]) hpages

/-- C1 (witness): three overlapping pages, none repeating an `_id` within itself. -/
theorem loadPages_ids_nodup_witness :
    (ids (loadPages ITEMS_PER_PAGE
      [[sample "A" 5, sample "B" 4], [sample "B" 4, sample "C" 3],
       [sample "A" 5, sample "D" 2]]).books).Nodup :=
  loadPages_ids_nodup ITEMS_PER_PAGE _ (by decide)

/-- C2: after any sequence of successful retrievals handled by `fetchBooks` from
the initial state, `hasMore` is false exactly when one of the pages was shorter
than `ITEMS_PER_PAGE = 10`; and one successful retrieval leaves `hasMore` at its
old value conjoined with "the page is full", so it never goes back to true. -/
theorem hasMore_false_iff_short_page (pages : List (List Book)) (s : State)
    (ok : Bool) (data : List Book) :
    ITEMS_PER_PAGE = 10 ∧
    ((loadPages ITEMS_PER_PAGE pages).hasMore = false ↔
      ∃ p ∈ pages, p.length < ITEMS_PER_PAGE) ∧
    (fetchBooks ITEMS_PER_PAGE s (.json ok data)).hasMore =
      (s.hasMore && decide (ITEMS_PER_PAGE ≤ data.length)) := by
  refine ⟨rfl, ?_, ?_⟩
  · unfold loadPages
    rw [foldl_fetchBooks_hasMore]
    simp [State.initial]
  · rw [fetchBooks_json]

/-- When `fetch` or `response.json()` rejects, `fetchBooks` changes nothing but
the error, which becomes the generic message, and ends with `loading = false`. -/
theorem fetchBooks_rejected (limit : Nat) (s : State) (ok : Bool) :
    fetchBooks limit s .networkError =
      { s with error := "Failed to fetch books", loading := false } ∧
    fetchBooks limit s (.badBody ok) =
      { s with error := "Failed to fetch books", loading := false } := by
  simp [fetchBooks, fetchBooks_begin, fetchBooks_end]

/-- C3 (the code at the failing input): a response that is not 2xx but whose body
parses to an array is handled as a retrieved page, since `fetchBooks` never reads
`response.ok`: the record is appended, `hasMore` is cleared and no error is set. -/
theorem fetchBooks_ignores_status :
    fetchBooks ITEMS_PER_PAGE { State.initial with books := [sample "A" 5] }
        (.json false [sample "B" 4]) =
      { State.initial with books := [sample "A" 5, sample "B" 4], hasMore := false } ∧
    (fetchBooks ITEMS_PER_PAGE { State.initial with books := [sample "A" 5] }
        (.json false [sample "B" 4])).error ≠ "Failed to fetch books" := by
  decide

/-- C6 (counterexample): over a collection of ten records the handler answers
`GET /books?page=1&limit=3` with all ten. -/
theorem getBooks_exceeds_limit :
    getBooks (.ok tenBooks) 1 3 = { status := 200, body := .books (findSorted tenBooks) } ∧
    ¬ (findSorted tenBooks).length ≤ 3 := by
  decide

/-- C6 (amended): whatever `page` and `limit` are, the successful response of
`GET /books` is the whole collection sorted by `createdAt`, newest first; its
length is the size of the collection, so it is at most `limit` exactly when the
collection holds at most `limit` records. -/
theorem getBooks_returns_whole_store (docs : List Book) (page limit : Nat) :
    getBooks (.ok docs) page limit = { status := 200, body := .books (findSorted docs) } ∧
    (findSorted docs).Perm docs ∧
    (findSorted docs).Sorted (fun a b => b.createdAt ≤ a.createdAt) ∧
    (findSorted docs).length = docs.length ∧
    ((findSorted docs).length ≤ limit ↔ docs.length ≤ limit) := by
  refine ⟨rfl, List.perm_insertionSort _ docs, ?_, List.length_insertionSort _ docs, ?_⟩
  · haveI : IsTotal Book (fun a b => b.createdAt ≤ a.createdAt) :=
      ⟨fun a b => Nat.le_total b.createdAt a.createdAt⟩
    haveI : IsTrans Book (fun a b => b.createdAt ≤ a.createdAt) :=
      ⟨fun _ _ _ hab hbc => Nat.le_trans hbc hab⟩
    exact List.sorted_insertionSort _ docs
  · unfold findSorted
    rw [List.length_insertionSort]

/-- C7: with the three fields filled in and the create request answered with the
record `r`, `handleSubmit` turns the accumulated list `S` into `r :: S` and leaves
`page` and `hasMore` as they were; neither the submission nor the arrival of its
answer starts or settles a page retrieval. -/
theorem handleSubmit_created (s : State) (r : Book) (limit : Nat) (c : Controller)
    (hfilled : (blank s.title || blank s.author || blank s.description) = false) :
    (handleSubmit s (.response true (some r))).books = r :: s.books ∧
    (handleSubmit s (.response true (some r))).page = s.page ∧
    (handleSubmit s (.response true (some r))).hasMore = s.hasMore ∧
    (handleSubmit_begin s).2 = some (Request.post s.title s.author s.description) ∧
    (step limit c .submit).gets = c.gets ∧
    (step limit c (.submitSettled (.response true (some r)))).gets = c.gets ∧
    (step limit c (.submitSettled (.response true (some r)))).sent = c.sent := by
  refine ⟨?_, ?_, ?_, ?_, ?_, ?_, ?_⟩
  · simp [handleSubmit, handleSubmit_begin, hfilled, handleSubmit_end]
  · simp [handleSubmit, handleSubmit_begin, hfilled, handleSubmit_end]
  · simp [handleSubmit, handleSubmit_begin, hfilled, handleSubmit_end]
  · simp [handleSubmit_begin, hfilled]
  · unfold step handleSubmit_begin
    by_cases hl : c.view.loading = true
    · simp [hl]
    · by_cases hb : (blank c.view.title || blank c.view.author || blank c.view.description) = true
      · simp [hl, hb]
      · simp [hl, hb]
  · unfold step
    cases h : c.posts <;> simp
  · unfold step
    cases h : c.posts <;> simp

/-- C7 (witness): accumulated `[A, B]` and the created record `F` give `[F, A, B]`. -/
theorem handleSubmit_created_witness :
    (handleSubmit { filledForm with books := [sample "A" 5, sample "B" 4] }
        (.response true (some (sample "F" 6)))).books =
      [sample "F" 6, sample "A" 5, sample "B" 4] :=
  (handleSubmit_created { filledForm with books := [sample "A" 5, sample "B" 4] }
    (sample "F" 6) ITEMS_PER_PAGE (mount ITEMS_PER_PAGE) (by decide)).1

/-- C8: with a book of `_id = d` selected and the delete request answered with a
2xx status, `handleDelete` leaves exactly the records of the accumulated list whose
`_id` differs from `d`, in their old order, and leaves `page` and `hasMore` as they
were. -/
theorem handleDelete_removes (s : State) (b : Book) (hsel : s.selectedBook = some b) :
    (handleDelete s (.response true)).books = s.books.filter (fun x => decide (x._id ≠ b._id)) ∧
    (∀ x, x ∈ (handleDelete s (.response true)).books ↔ x ∈ s.books ∧ x._id ≠ b._id) ∧
    (handleDelete s (.response true)).books.Sublist s.books ∧
    (handleDelete s (.response true)).page = s.page ∧
    (handleDelete s (.response true)).hasMore = s.hasMore := by
  have hbooks : (handleDelete s (.response true)).books =
      s.books.filter (fun x => decide (x._id ≠ b._id)) := by
    simp only [handleDelete, handleDelete_begin, hsel, handleDelete_end]
    apply List.filter_congr
    intro x _
    by_cases hx : x._id = b._id <;> simp [hx]
  refine ⟨hbooks, ?_, ?_, ?_, ?_⟩
  · intro x
    rw [hbooks]
    simp [List.mem_filter]
  · rw [hbooks]
    exact List.filter_sublist _
  · simp [handleDelete, handleDelete_begin, hsel, handleDelete_end]
  · simp [handleDelete, handleDelete_begin, hsel, handleDelete_end]

/-- C8 (witness): accumulated `[A, B, C]` with `B` selected gives `[A, C]`. -/
theorem handleDelete_removes_witness :
    (handleDelete (confirmDelete
        { State.initial with books := [sample "A" 5, sample "B" 4, sample "C" 3] }
        (sample "B" 4)) (.response true)).books = [sample "A" 5, sample "C" 3] :=
  ((handleDelete_removes (confirmDelete
        { State.initial with books := [sample "A" 5, sample "B" 4, sample "C" 3] }
        (sample "B" 4)) (sample "B" 4) rfl).1).trans (by decide)

/-- C9: when one of title, author, description is empty after trimming,
`handleSubmit` only sets the error to the required-fields message and sends
nothing, whatever answer a request would have got: list, page, `hasMore`,
`loading` and the three fields stay; when none is, it sends the create request. -/
theorem handleSubmit_validation (s : State) (r : SubmitResult) :
    ((blank s.title || blank s.author || blank s.description) = true →
      handleSubmit_begin s = ({ s with error := "All fields are required" }, none) ∧
      handleSubmit s r = { s with error := "All fields are required" }) ∧
    ((blank s.title || blank s.author || blank s.description) = false →
      (handleSubmit_begin s).2 = some (Request.post s.title s.author s.description)) ∧
    (∀ t : String, blank t = true ↔ trim t.toList = []) := by
  refine ⟨?_, ?_, ?_⟩
  · intro h
    simp [handleSubmit, handleSubmit_begin, h]
  · intro h
    simp [handleSubmit_begin, h]
  · intro t
    simp [blank]

/-- C9 (witness): a form whose author is white space only is rejected without a
request; a filled form sends the `POST`. -/
theorem handleSubmit_validation_witness :
    (handleSubmit_begin blankAuthorForm =
        ({ blankAuthorForm with error := "All fields are required" }, none) ∧
      handleSubmit blankAuthorForm .networkError =
        { blankAuthorForm with error := "All fields are required" }) ∧
    (handleSubmit_begin filledForm).2 = some (Request.post " Dune " "Herbert" "Sand.") :=
  ⟨(handleSubmit_validation blankAuthorForm .networkError).1 (by decide),
   (handleSubmit_validation filledForm .networkError).2.1 (by decide)⟩

/-! ## Page loads in a row -/

theorem fetchBooks_end_json (limit : Nat) (s : State) (ok : Bool) (data : List Book) :
    fetchBooks_end limit s (.json ok data) =
      { s with hasMore := s.hasMore && decide (limit ≤ data.length),
               books := mergePage s.books data, loading := false } := by
  unfold fetchBooks_end
  by_cases h : data.length < limit
  · have h2 : ¬ limit ≤ data.length := by omega
    simp [h, h2]
  · have h2 : limit ≤ data.length := by omega
    simp [h, h2]

theorem afterLoad_zero (limit : Nat) (serve : Nat → Nat → FetchResult) :
    afterLoad limit serve 0 =
      { view := fetchBooks_end limit { State.initial with loading := true } (serve 1 limit),
        gets := [], posts := 0, deletes := [], sent := [Request.get 1 limit] } := by
  rfl

theorem next_load (limit : Nat) (serve : Nat → Nat → FetchResult) (c : Controller)
    (hloading : c.view.loading = false) (hmore : c.view.hasMore = true)
    (hbooks : c.view.books ≠ []) (hpage : c.view.page ≠ 0) (hgets : c.gets = []) :
    settleWith limit serve (step limit c .intersect) =
      { c with
        view := fetchBooks_end limit { c.view with page := c.view.page + 1, loading := true }
          (serve (c.view.page + 1) limit),
        gets := [],
        sent := c.sent ++ [Request.get (c.view.page + 1) limit] } := by
  have hne : c.view.books.isEmpty = false := by
    cases hb : c.view.books with
    | nil => exact absurd hb hbooks
    | cons _ _ => rfl
  simp [settleWith, step, onIntersect, pageEffect_begin, fetchBooks_begin, hloading, hmore,
    hne, hpage, hgets]

theorem mergePage_take_drop (L : List Book) (hL : (ids L).Nodup) (a b : Nat) :
    mergePage (L.take a) ((L.drop a).take b) = L.take (a + b) := by
  unfold mergePage
  rw [List.take_add, List.filter_eq_self.2]
  intro x hx
  have hxd : x ∈ L.drop a := List.mem_of_mem_take hx
  have hsplit : ids L = ids (L.take a) ++ ids (L.drop a) := by
    unfold ids
    rw [← List.map_append, List.take_append_drop]
  rw [hsplit] at hL
  have hdisj := (List.nodup_append.1 hL).2.2
  have hnot : ¬ x._id ∈ ids (L.take a) := fun hmem =>
    hdisj hmem (mem_ids.2 ⟨x, hxd, rfl⟩)
  rw [← any_id_iff] at hnot
  simpa using hnot

theorem mergePage_self (l : List Book) : mergePage l l = l := by
  unfold mergePage
  have : l.filter (fun newBook =>
      !l.any (fun existingBook => existingBook._id == newBook._id)) = [] := by
    rw [List.filter_eq_nil_iff]
    intro x hx
    have : l.any (fun existingBook => existingBook._id == x._id) = true :=
      (any_id_iff l x).2 (mem_ids.2 ⟨x, hx, rfl⟩)
    simp [this]
  rw [this, List.append_nil]

theorem chunk_length (L : List Book) (k i : Nat) :
    (chunk L k i).length = min k (L.length - (i - 1) * k) := by
  simp [chunk]

/-- The state after `j + 1` loads against a service that cuts `L` into pages of
`k`, for every load up to the one that meets the short page. -/
theorem afterLoad_paged (L : List Book) (k : Nat) (serve : Nat → Nat → FetchResult)
    (hk : 0 < k) (hL : (ids L).Nodup)
    (hserve : ∀ i, 1 ≤ i → serve i k = .json true (chunk L k i)) (j : Nat)
    (hj : j ≤ L.length / k) :
    (afterLoad k serve j).view.books = L.take ((j + 1) * k) ∧
    (afterLoad k serve j).view.hasMore = decide (j < L.length / k) ∧
    (afterLoad k serve j).view.loading = false ∧
    (afterLoad k serve j).view.page = j + 1 ∧
    (afterLoad k serve j).gets = [] := by
  induction j with
  | zero =>
    rw [afterLoad_zero, hserve 1 (le_refl 1), fetchBooks_end_json]
    have hlen := chunk_length L k 1
    have hiff : k ≤ (chunk L k 1).length ↔ 0 < L.length / k := by
      rw [hlen, Nat.div_pos_iff]
      simp
      omega
    refine ⟨?_, ?_, ?_, ?_, ?_⟩
    · simp [State.initial, mergePage_nil, chunk]
    · simp [State.initial, hiff]
    · simp
    · simp [State.initial]
    · simp
  | succ j ih =>
    have hjlt : j < L.length / k := by omega
    obtain ⟨hb, hm, hl, hp, hg⟩ := ih (by omega)
    have hmul : (j + 1) * k ≤ L.length := (Nat.le_div_iff_mul_le hk).1 hjlt
    have hpos : 0 < (j + 1) * k := Nat.mul_pos (Nat.succ_pos j) hk
    have hne : (afterLoad k serve j).view.books ≠ [] := by
      rw [hb]
      intro h
      have hz : (L.take ((j + 1) * k)).length = 0 := by rw [h]; rfl
      rw [List.length_take] at hz
      omega
    have hstep := next_load k serve (afterLoad k serve j) hl (by simpa [hjlt] using hm) hne
      (by rw [hp]; omega) hg
    have hEq : afterLoad k serve (j + 1) =
        settleWith k serve (step k (afterLoad k serve j) .intersect) := rfl
    rw [hEq, hstep, hp, hserve (j + 1 + 1) (by omega), fetchBooks_end_json]
    have hchunk : chunk L k (j + 1 + 1) = (L.drop ((j + 1) * k)).take k := by
      simp [chunk]
    have hlen := chunk_length L k (j + 1 + 1)
    have hiff : k ≤ (chunk L k (j + 1 + 1)).length ↔ j + 1 < L.length / k := by
      rw [hlen, Nat.lt_iff_add_one_le, Nat.le_div_iff_mul_le hk]
      have e1 : (j + 1 + 1 - 1) * k = (j + 1) * k := by simp
      have e2 : (j + 1 + 1) * k = (j + 1) * k + k := by ring
      rw [e1, e2]
      omega
    refine ⟨?_, ?_, ?_, ?_, ?_⟩
    · show mergePage (afterLoad k serve j).view.books (chunk L k (j + 1 + 1)) = _
      rw [hb, hchunk, mergePage_take_drop L hL]
      congr 1
      ring
    · show ((afterLoad k serve j).view.hasMore &&
        decide (k ≤ (chunk L k (j + 1 + 1)).length)) = _
      rw [hm]
      simp [hjlt, hiff]
    · simp
    · simp
    · simp

/-- C4: against a service that answers cursor `i` with the `i`-th run of `k`
records of a list `L` of distinct `_id` (`k > 0`; nothing once `L` is used up),
each of the first `⌊|L|/k⌋` loads leaves the first `i * k` records accumulated with
`hasMore` still true, and the load of cursor `⌊|L|/k⌋ + 1` leaves exactly `L`
accumulated with `hasMore` false. -/
theorem paged_loads_accumulate (L : List Book) (k : Nat) (serve : Nat → Nat → FetchResult)
    (hk : 0 < k) (hL : (ids L).Nodup)
    (hserve : ∀ i, 1 ≤ i → serve i k = .json true (chunk L k i)) :
    (∀ j, j < L.length / k →
      (afterLoad k serve j).view.books = L.take ((j + 1) * k) ∧
      (afterLoad k serve j).view.hasMore = true ∧
      (afterLoad k serve j).view.page = j + 1) ∧
    (afterLoad k serve (L.length / k)).view.books = L ∧
    (afterLoad k serve (L.length / k)).view.hasMore = false ∧
    (afterLoad k serve (L.length / k)).view.page = L.length / k + 1 := by
  constructor
  · intro j hj
    obtain ⟨hb, hm, -, hp, -⟩ := afterLoad_paged L k serve hk hL hserve j (le_of_lt hj)
    exact ⟨hb, by simpa [hj] using hm, hp⟩
  · obtain ⟨hb, hm, -, hp, -⟩ :=
      afterLoad_paged L k serve hk hL hserve (L.length / k) (le_refl _)
    refine ⟨?_, by simpa using hm, hp⟩
    rw [hb]
    apply List.take_of_length_le
    have := Nat.lt_succ_iff.1 (Nat.lt_succ_of_le (le_refl (L.length / k)))
    have h2 : L.length < (L.length / k + 1) * k := by
      have := Nat.lt_div_mul_add hk (a := L.length)
      rw [Nat.add_mul, Nat.one_mul]
      exact this
    omega

/-- C4 (witness): `k = 2` and `L = [A, B, C, D, E]` give `[A, B]`, then
`[A, B, C, D]`, then `[A, B, C, D, E]`, with `hasMore` false only after the third
load. -/
theorem paged_loads_accumulate_witness :
    ((afterLoad 2 (fun p n => .json true (chunk fiveBooks n p)) 0).view.books =
        [sample "A" 5, sample "B" 4] ∧
      (afterLoad 2 (fun p n => .json true (chunk fiveBooks n p)) 0).view.hasMore = true) ∧
    ((afterLoad 2 (fun p n => .json true (chunk fiveBooks n p)) 1).view.books =
        [sample "A" 5, sample "B" 4, sample "C" 3, sample "D" 2] ∧
      (afterLoad 2 (fun p n => .json true (chunk fiveBooks n p)) 1).view.hasMore = true) ∧
    (afterLoad 2 (fun p n => .json true (chunk fiveBooks n p)) 2).view.books = fiveBooks ∧
    (afterLoad 2 (fun p n => .json true (chunk fiveBooks n p)) 2).view.hasMore = false := by
  have h := paged_loads_accumulate fiveBooks 2 (fun p n => .json true (chunk fiveBooks n p))
    (by decide) (by decide) (fun _ _ => rfl)
  have h0 := h.1 0 (by decide)
  have h1 := h.1 1 (by decide)
  exact ⟨⟨h0.1, h0.2.1⟩, ⟨h1.1, h1.2.1⟩, h.2.1, h.2.2.1⟩

/-! ## The client against the repository's own service -/

/-- The state after `m + 1` loads against `getBooks` over a collection of at least
`limit` records. -/
theorem afterLoad_served (limit : Nat) (docs : List Book) (hN : limit ≤ docs.length)
    (hpos : 0 < limit) (m : Nat) :
    (afterLoad limit (served docs) m).view.books = findSorted docs ∧
    (afterLoad limit (served docs) m).view.hasMore = true ∧
    (afterLoad limit (served docs) m).view.loading = false ∧
    (afterLoad limit (served docs) m).view.page = m + 1 ∧
    (afterLoad limit (served docs) m).gets = [] := by
  have hlen : (findSorted docs).length = docs.length := List.length_insertionSort _ docs
  induction m with
  | zero =>
    rw [afterLoad_zero]
    show _ ∧ _ ∧ _ ∧ _ ∧ _
    unfold served
    rw [fetchBooks_end_json]
    refine ⟨?_, ?_, ?_, ?_, ?_⟩
    · simp [State.initial, mergePage_nil]
    · simp [State.initial, hlen, hN]
    · simp
    · simp [State.initial]
    · simp
  | succ m ih =>
    obtain ⟨hb, hm, hl, hp, hg⟩ := ih
    have hne : (afterLoad limit (served docs) m).view.books ≠ [] := by
      rw [hb]
      intro h
      have hz : (findSorted docs).length = 0 := by rw [h]; rfl
      omega
    have hstep := next_load limit (served docs) (afterLoad limit (served docs) m) hl hm hne
      (by rw [hp]; omega) hg
    have hEq : afterLoad limit (served docs) (m + 1) =
        settleWith limit (served docs) (step limit (afterLoad limit (served docs) m) .intersect) :=
      rfl
    rw [hEq, hstep, hp]
    unfold served
    rw [fetchBooks_end_json]
    refine ⟨?_, ?_, ?_, ?_, ?_⟩
    · show mergePage (afterLoad limit (served docs) m).view.books (findSorted docs) = _
      rw [hb, mergePage_self]
    · show ((afterLoad limit (served docs) m).view.hasMore &&
        decide (limit ≤ (findSorted docs).length)) = _
      rw [hm]
      simp [hlen, hN]
    · simp
    · simp
    · simp

/-- C10: against the repository's own `GET /books` handler over an unchanging
collection of at least ten records, after every number `m + 1` of successful
loads the accumulated list is the whole sorted collection, `hasMore` is still
true and nothing is in flight, so the next trigger increments the cursor and
issues one more retrieval. -/
theorem own_service_never_ends (docs : List Book) (hN : 10 ≤ docs.length) (m : Nat) :
    (∀ p n, getBooks (.ok docs) p n = { status := 200, body := .books (findSorted docs) } ∧
      served docs p n = .json true (findSorted docs)) ∧
    (afterLoad ITEMS_PER_PAGE (served docs) m).view.books = findSorted docs ∧
    (afterLoad ITEMS_PER_PAGE (served docs) m).view.hasMore = true ∧
    (afterLoad ITEMS_PER_PAGE (served docs) m).view.page = m + 1 ∧
    (afterLoad ITEMS_PER_PAGE (served docs) m).gets = [] ∧
    (step ITEMS_PER_PAGE (afterLoad ITEMS_PER_PAGE (served docs) m) .intersect).view.page =
      m + 2 ∧
    (step ITEMS_PER_PAGE (afterLoad ITEMS_PER_PAGE (served docs) m) .intersect).gets =
      [Request.get (m + 2) ITEMS_PER_PAGE] ∧
    (step ITEMS_PER_PAGE (afterLoad ITEMS_PER_PAGE (served docs) m) .intersect).sent =
      (afterLoad ITEMS_PER_PAGE (served docs) m).sent ++ [Request.get (m + 2) ITEMS_PER_PAGE] := by
  obtain ⟨hb, hm, hl, hp, hg⟩ :=
    afterLoad_served ITEMS_PER_PAGE docs hN (by decide) m
  have hne : (afterLoad ITEMS_PER_PAGE (served docs) m).view.books.isEmpty = false := by
    rw [hb]
    cases h : findSorted docs with
    | nil =>
      have hz : (findSorted docs).length = 0 := by rw [h]; rfl
      have hlen : (findSorted docs).length = docs.length := List.length_insertionSort _ docs
      omega
    | cons _ _ => rfl
  refine ⟨fun _ _ => ⟨rfl, rfl⟩, hb, hm, hp, hg, ?_, ?_, ?_⟩
  · simp [step, onIntersect, pageEffect_begin, fetchBooks_begin, hl, hm, hne, hp]
  · simp [step, onIntersect, pageEffect_begin, fetchBooks_begin, hl, hm, hne, hp, hg]
  · simp [step, onIntersect, pageEffect_begin, fetchBooks_begin, hl, hm, hne, hp]

/-- C10 (witness): ten records, four loads. -/
theorem own_service_never_ends_witness :
    (afterLoad ITEMS_PER_PAGE (served tenBooks) 3).view.books = findSorted tenBooks ∧
    (afterLoad ITEMS_PER_PAGE (served tenBooks) 3).view.hasMore = true ∧
    (step ITEMS_PER_PAGE (afterLoad ITEMS_PER_PAGE (served tenBooks) 3) .intersect).gets =
      [Request.get 5 ITEMS_PER_PAGE] :=
  have h := own_service_never_ends tenBooks (by decide) 3
  ⟨h.2.1, h.2.2.1, h.2.2.2.2.2.2.1⟩

/-! ## Retrievals in flight -/

/-- A second trigger right after a trigger changes nothing: it issues no request
and leaves the cursor. -/
theorem intersect_twice (limit : Nat) (c : Controller) :
    step limit (step limit c .intersect) .intersect = step limit c .intersect := by
  by_cases hl : c.view.loading = true
  · simp [step, onIntersect, hl]
  · by_cases he : c.view.books.isEmpty = true
    · simp [step, onIntersect, hl, he]
    · by_cases hm : c.view.hasMore = true
      · simp [step, onIntersect, hl, he, hm, pageEffect_begin, fetchBooks_begin]
      · simp [step, onIntersect, hl, he, hm]

/-- C5 (the code at the failing input): page 2 is being retrieved when a delete
request is answered; its `finally` clears `loading`, so the next trigger
increments the cursor to 3 and issues a second retrieval while the first is
still in flight. -/
theorem second_retrieval_in_flight :
    (run ITEMS_PER_PAGE (mount ITEMS_PER_PAGE) deleteDuringLoad).gets =
      [Request.get 2 ITEMS_PER_PAGE] ∧
    (run ITEMS_PER_PAGE (mount ITEMS_PER_PAGE) deleteDuringLoad).view.loading = false ∧
    (run ITEMS_PER_PAGE (mount ITEMS_PER_PAGE) deleteDuringLoad).view.page = 2 ∧
    (run ITEMS_PER_PAGE (mount ITEMS_PER_PAGE) (deleteDuringLoad ++ [.intersect])).view.page = 3 ∧
    (run ITEMS_PER_PAGE (mount ITEMS_PER_PAGE) (deleteDuringLoad ++ [.intersect])).gets =
      [Request.get 2 ITEMS_PER_PAGE, Request.get 3 ITEMS_PER_PAGE] ∧
    (run ITEMS_PER_PAGE (mount ITEMS_PER_PAGE) (deleteDuringLoad ++ [.intersect])).sent =
      [Request.get 1 ITEMS_PER_PAGE, Request.get 2 ITEMS_PER_PAGE, Request.delete "3",
       Request.get 3 ITEMS_PER_PAGE] := by
  decide

/-- While only triggers and answers to retrievals occur, a retrieval in flight
keeps `loading` set, so at most one retrieval is in flight. -/
theorem retrievals_alone_never_overlap (limit : Nat) (events : List Event)
    (honly : ∀ e ∈ events, e = .intersect ∨ ∃ r, e = .fetchSettled r) :
    (run limit (mount limit) events).gets.length ≤ 1 := by
  suffices h : ∀ c : Controller,
      (c.gets.length ≤ 1 ∧ (c.gets ≠ [] → c.view.loading = true)) →
      (run limit c events).gets.length ≤ 1 by
    apply h
    exact ⟨by simp [mount], fun _ => rfl⟩
  induction events with
  | nil =>
    intro c hc
    exact hc.1
  | cons e rest ih =>
    intro c hc
    have hrest : ∀ e ∈ rest, e = .intersect ∨ ∃ r, e = .fetchSettled r :=
      fun x hx => honly x (List.mem_cons_of_mem _ hx)
    show (run limit (step limit c e) rest).gets.length ≤ 1
    apply ih hrest
    rcases honly e (List.mem_cons_self _ _) with rfl | ⟨r, rfl⟩
    · by_cases hl : c.view.loading = true
      · simpa [step, onIntersect, hl] using hc
      · have hg : c.gets = [] := by
          by_contra hne
          exact hl (hc.2 hne)
        by_cases he : c.view.books.isEmpty = true
        · simpa [step, onIntersect, hl, he] using hc
        · by_cases hm : c.view.hasMore = true
          · simp [step, onIntersect, hl, he, hm, pageEffect_begin, fetchBooks_begin, hg]
          · simpa [step, onIntersect, hl, he, hm] using hc
    · cases hgs : c.gets with
      | nil => simp [step, hgs]
      | cons g tl =>
        have hlen := hc.1
        rw [hgs] at hlen
        have htl : tl = [] := by
          cases tl with
          | nil => rfl
          | cons _ _ => simp at hlen
        simp [step, hgs, htl]

end BookListing
